import Mathlib

/-!
# gh-issue-collector: a verification development over `main.go`

The program is a small HTTP relay.  `IssueHandler` validates a form
submission, resolves the project named by the route (`findProject`), sets the
CORS header (`setCorsAcl`), authorises the caller (`canPostToProject`) and
relays the submission as a create-issue call to the GitHub API.

Embedding conventions

* Go maps (`http.Header`, `url.Values`, `mux.Vars`) are association lists; a
  lookup of an absent key yields the zero value, as in Go.
* Go pointers that may be nil are `Option`s; a nil slice is `none`.
* The package-level `cfg` is passed explicitly.
* The GitHub client and the JSON encoder are libraries outside this program:
  they are parameters of `IssueHandler` (`create`, `encode`).
* Log output is a side channel and is not recorded.
-/

namespace GhIssueCollector

/-! ## Data model -/

/-- The `Project` struct of `main.go`. -/
structure Project where
  User : String
  Token : String
  Organization : String
  Owner : String
  Repository : String
  Labels : List String
  Assignee : String
  State : String
  Milestone : Int
  Origins : List String
  deriving DecidableEq, Repr

/-- The zero value of `Project` (what a named result holds before assignment). -/
def Project.zero : Project :=
  { User := "", Token := "", Organization := "", Owner := "", Repository := "",
    Labels := [], Assignee := "", State := "", Milestone := 0, Origins := [] }

/-- The `Config` struct of `main.go`; `Projects = none` is the nil slice. -/
structure Config where
  Listen : String
  Projects : Option (List Project)
  deriving DecidableEq, Repr

/-- An `http.Header`: keys with their value lists. -/
structure Header where
  entries : List (String × List String)
  deriving DecidableEq, Repr

/-- The function `Header.Get`: the first value stored under `key`, or `""`. -/
def Header.Get (h : Header) (key : String) : String :=
  match h.entries.lookup key with
  | some (v :: _) => v
  | _ => ""

/-- The function `Header.Set`: replaces what is stored under `key` by the one value. -/
def Header.Set (h : Header) (key value : String) : Header :=
  ⟨(key, [value]) :: h.entries.filter (fun kv => kv.1 != key)⟩

/-- The value list stored under `key`, `none` when the header is unset. -/
def Header.Values (h : Header) (key : String) : Option (List String) :=
  h.entries.lookup key

/-- The parts of `*http.Request` the handlers read. -/
structure Request where
  Header : Header
  RemoteAddr : String
  Form : List (String × List String)
  Vars : List (String × String)
  deriving DecidableEq, Repr

/-- The method `r.Referer()`: the `Referer` header. -/
def Request.Referer (r : Request) : String :=
  r.Header.Get "Referer"

/-- The method `r.FormValue(key)`: the first form value for `key`, or `""`. -/
def Request.FormValue (r : Request) (key : String) : String :=
  match r.Form.lookup key with
  | some (v :: _) => v
  | _ => ""

/-- The lookup `mux.Vars(r)[key]`: the route variable, or `""` when absent. -/
def Request.Var (r : Request) (key : String) : String :=
  (r.Vars.lookup key).getD ""

/-- The observable state of an `http.ResponseWriter`: the header map, the
status line once written (`none` before), and the body written so far. -/
structure ResponseWriter where
  Header : Header
  status : Option Int
  body : String
  deriving DecidableEq, Repr

/-- The status the client receives: 200 unless another one was written. -/
def ResponseWriter.StatusCode (w : ResponseWriter) : Int :=
  w.status.getD 200

/-- The method `w.WriteHeader(code)` of net/http, `none` when it panics.  Once
a status is written a further call changes nothing; otherwise a code outside
100..999 panics, an informational code (1xx other than 101) goes out as an
interim response and commits nothing, and any other code becomes the status. -/
def ResponseWriter.WriteHeader (w : ResponseWriter) (code : Int) : Option ResponseWriter :=
  match w.status with
  | some _ => some w
  | none =>
    if code < 100 || code > 999 then none
    else if 100 ≤ code && code ≤ 199 && code != 101 then some w
    else some { w with status := some code }

/-- The method `w.Write(s)`: commits status 200 if none was written, then appends. -/
def ResponseWriter.Write (w : ResponseWriter) (s : String) : ResponseWriter :=
  match w.status with
  | none => { w with status := some 200, body := w.body ++ s }
  | some _ => { w with body := w.body ++ s }

/-- The function `http.Error(w, error, code)` of net/http: it sets `Content-Type` and
`X-Content-Type-Options`, writes the status `code`, and prints the message
followed by a line feed.  The second component tells whether `WriteHeader`
panicked, in which case nothing is printed. -/
def httpError (w : ResponseWriter) (error : String) (code : Int) : ResponseWriter × Bool :=
  let w1 : ResponseWriter :=
    { w with
      Header := (w.Header.Set "Content-Type" "text/plain; charset=utf-8").Set
        "X-Content-Type-Options" "nosniff" }
  match w1.WriteHeader code with
  | none => (w1, true)
  | some w2 => (w2.Write (error ++ "\n"), false)

/-! ## Project lookup -/

/-- The function `findProject`: returns `(err, project)`.  Both results start as the error
and the zero project; every matching entry overwrites them in turn. -/
def findProject (cfg : Config) (org repo : String) : Option String × Project :=
  match cfg.Projects with
  | none => (some "Project not registered", Project.zero)
  | some ps =>
    ps.foldl
      (fun acc p => if p.Organization == org && p.Repository == repo then (none, p) else acc)
      (some "Project not registered", Project.zero)

/-! ## Access policy -/

/-- The function `setCorsAcl`: sets `Access-Control-Allow-Origin` to the request's origin
when the project is open or lists that origin. -/
def setCorsAcl (w : ResponseWriter) (r : Request) (p : Project) : ResponseWriter :=
  let origin := r.Header.Get "Origin"
  if p.Origins.length < 1 then
    { w with Header := w.Header.Set "Access-Control-Allow-Origin" origin }
  else if p.Origins.any (fun host => host == origin) then
    { w with Header := w.Header.Set "Access-Control-Allow-Origin" origin }
  else
    w

/-- The function `canPostToProject`: whether the request may post to the project. -/
def canPostToProject (r : Request) (p : Project) : Bool :=
  let origin := r.Header.Get "Origin"
  let referer := r.Referer
  let remote := r.RemoteAddr
  if p.Origins.length < 1 then
    true
  else if p.Origins.any (fun host => host == origin || host == referer || host == remote) then
    true
  else
    false

/-! ## Issue relay -/

/-- The `github.IssueRequest` the handler fills in; every field is a pointer. -/
structure IssueRequest where
  Title : Option String
  Body : Option String
  Labels : Option (List String)
  Assignee : Option String
  State : Option String
  Milestone : Option Int
  deriving DecidableEq, Repr

/-- One `client.Issues.Create` call: the access token the client was built
with, the owner and repository it is scoped to, and the request sent. -/
structure CreateCall where
  Token : String
  Owner : String
  Repo : String
  Issue : IssueRequest
  deriving DecidableEq, Repr

/-- The fields of `github.Response` that the handler reads. -/
structure Response where
  Status : String
  StatusCode : Int
  deriving DecidableEq, Repr

/-- The three results of `client.Issues.Create`: the issue, the upstream
response (nil when the call never got one) and the error (nil on success). -/
structure CreateResult (Issue : Type) where
  i : Option Issue
  resp : Option Response
  err : Option String

/-- What one run of `IssueHandler` leaves behind: the response writer, the
upstream calls made in order, and whether the handler ended in a runtime
panic (after which it writes nothing more). -/
structure Outcome where
  w : ResponseWriter
  calls : List CreateCall
  panicked : Bool
  deriving DecidableEq, Repr

/-- The function `writeJson`: encodes `i` into `w`; an encoding error is only logged. -/
def writeJson {Issue : Type} (encode : Option Issue → Except String String)
    (w : ResponseWriter) (i : Option Issue) : ResponseWriter :=
  match encode i with
  | .ok s => w.Write s
  | .error _ => w

/-- The issue request `IssueHandler` builds from the form values and the
project's defaults (the code between the client's construction and the
`Create` call). -/
def buildIssue (p : Project) (title body : String) : IssueRequest :=
  let issue : IssueRequest :=
    { Title := some title, Body := some body, Labels := none, Assignee := none,
      State := none, Milestone := none }
  let issue := if p.Labels.length > 0 then { issue with Labels := some p.Labels } else issue
  let issue := if p.Assignee != "" then { issue with Assignee := some p.Assignee } else issue
  let issue := if p.State != "" then { issue with State := some p.State } else issue
  let issue := if p.Milestone != 0 then { issue with Milestone := some p.Milestone } else issue
  issue

/-- The function `IssueHandler`, run on the writer `w` and the request `r`, with the
configuration `cfg`, the JSON encoder `encode` and the upstream `create`. -/
def IssueHandler {Issue : Type} (cfg : Config)
    (encode : Option Issue → Except String String)
    (create : CreateCall → CreateResult Issue)
    (w : ResponseWriter) (r : Request) : Outcome :=
  let title := r.FormValue "title"
  let body := r.FormValue "body"
  if title == "" || body == "" then
    let e := httpError w "Title and body required" 400
    ⟨e.1, [], e.2⟩
  else
    let (err, p) := findProject cfg (r.Var "organization") (r.Var "project")
    if err.isSome then
      let e := httpError w "Project not registered" 400
      ⟨e.1, [], e.2⟩
    else
      let w := setCorsAcl w r p
      if !canPostToProject r p then
        let e := httpError w "Sorry, you can't post to this project" 401
        ⟨e.1, [], e.2⟩
      else
        let call : CreateCall := ⟨p.Token, p.Organization, p.Repository, buildIssue p title body⟩
        let res := create call
        if res.err.isSome then
          match res.resp with
          | none => ⟨w, [call], true⟩
          | some resp =>
            let e := httpError w resp.Status resp.StatusCode
            ⟨e.1, [call], e.2⟩
        else
          ⟨writeJson encode w res.i, [call], false⟩

/-! ## Example data used to instantiate the theorems -/

/-- A project `acme/widgets` with the given allow-list and token `tok`. -/
def exProject (origins : List String) : Project :=
  { Project.zero with
    Token := "tok", Organization := "acme", Repository := "widgets", Origins := origins }

/-- A request to `/acme/widgets` with the given origin, title and body. -/
def exRequest (origin title body : String) : Request :=
  { Header := ⟨[("Origin", [origin])]⟩, RemoteAddr := "203.0.113.7:51234",
    Form := [("title", [title]), ("body", [body])],
    Vars := [("organization", "acme"), ("project", "widgets")] }

/-- An encoder for issues represented by their number. -/
def exEncode : Option Nat → Except String String
  | some n => .ok (toString n)
  | none => .ok "null"

/-- A configuration registering `acme/widgets` once, with the given allow-list. -/
def exConfig (origins : List String) : Config :=
  ⟨":8080", some [exProject origins]⟩

/-- An upstream that creates issue number 42. -/
def exCreateOk : CreateCall → CreateResult Nat :=
  fun _ => ⟨some 42, some ⟨"201 Created", 201⟩, none⟩

/-- An upstream whose call fails, with the given response (nil when `none`). -/
def exCreateFail (resp : Option Response) : CreateCall → CreateResult Nat :=
  fun _ => ⟨none, resp, some "upstream failure"⟩

/-- A project `acme/gadgets` with labels, an assignee and a milestone but no
default state, open to every origin. -/
def exProjectDefaults : Project :=
  { Project.zero with
    Token := "tok", Organization := "acme", Repository := "gadgets",
    Labels := ["bug", "web"], Assignee := "octocat", Milestone := 3 }

/-- A request to `/acme/gadgets` without an `Origin` header. -/
def exRequestGadgets : Request :=
  { Header := ⟨[]⟩, RemoteAddr := "203.0.113.7:51234",
    Form := [("title", ["Bug"]), ("body", ["Crashes on load"])],
    Vars := [("organization", "acme"), ("project", "gadgets")] }

/-- A request to `/acme/widgets` whose `Referer`, but not its `Origin`, is
`https://acme.example`. -/
def exRequestReferer : Request :=
  { Header := ⟨[("Origin", ["https://evil.example"]), ("Referer", ["https://acme.example"])]⟩,
    RemoteAddr := "203.0.113.7:51234",
    Form := [("title", ["Bug"]), ("body", ["Crash"])],
    Vars := [("organization", "acme"), ("project", "widgets")] }

/-! ## Header lemmas -/

theorem lookup_filter_ne (k key : String) (es : List (String × List String)) (h : k ≠ key) :
    (es.filter (fun kv => kv.1 != key)).lookup k = es.lookup k := by
  induction es with
  | nil => rfl
  | cons e es ih =>
    obtain ⟨a, b⟩ := e
    by_cases hak : a = key
    · subst hak
      have hka : (k == a) = false := by simpa using h
      simp [List.filter_cons, List.lookup_cons, hka, ih]
    · have hne : (a != key) = true := by simpa using hak
      simp only [List.filter_cons, hne, if_true, List.lookup_cons, ih]

theorem Header.Values_Set_same (h : Header) (key value : String) :
    (h.Set key value).Values key = some [value] := by
  simp [Header.Set, Header.Values, List.lookup_cons]

theorem Header.Values_Set_other (h : Header) (key value k : String) (hk : k ≠ key) :
    (h.Set key value).Values k = h.Values k := by
  have hkk : (k == key) = false := by simpa using hk
  simp only [Header.Set, Header.Values, List.lookup_cons, hkk]
  exact lookup_filter_ne k key h.entries hk

theorem Header.Get_Set_same (h : Header) (key value : String) :
    (h.Set key value).Get key = value := by
  simp [Header.Set, Header.Get, List.lookup_cons]

/-! ## Project lookup -/

/-- The scan of `findProject` leaves its accumulator alone when nothing matches. -/
theorem findLoop_none (org repo : String) (init : Option String × Project) (ps : List Project)
    (h : ∀ q ∈ ps, ¬ (q.Organization = org ∧ q.Repository = repo)) :
    ps.foldl
      (fun acc p => if p.Organization == org && p.Repository == repo then (none, p) else acc)
      init = init := by
  induction ps generalizing init with
  | nil => rfl
  | cons a l ih =>
    have ha : ¬ (a.Organization = org ∧ a.Repository = repo) := h a (List.mem_cons_self _ _)
    have hl : ∀ q ∈ l, ¬ (q.Organization = org ∧ q.Repository = repo) :=
      fun q hq => h q (List.mem_cons_of_mem _ hq)
    have hcond : (a.Organization == org && a.Repository == repo) = false := by
      rw [Bool.eq_false_iff]
      intro hc
      simp only [Bool.and_eq_true, beq_iff_eq] at hc
      exact ha hc
    simp only [List.foldl_cons, hcond, Bool.false_eq_true, if_false]
    exact ih init hl

/-- The scan of `findProject` ends on the last matching entry when there is one. -/
theorem findLoop_some (org repo : String) (init : Option String × Project) (ps : List Project)
    (h : ∃ q ∈ ps, q.Organization = org ∧ q.Repository = repo) :
    ∃ (i : Nat) (p : Project), ps[i]? = some p ∧ (p.Organization = org ∧ p.Repository = repo) ∧
      (∀ (j : Nat) (q : Project), i < j → ps[j]? = some q → ¬ (q.Organization = org ∧ q.Repository = repo)) ∧
      ps.foldl
        (fun acc p => if p.Organization == org && p.Repository == repo then (none, p) else acc)
        init = (none, p) := by
  induction ps using List.reverseRecOn with
  | nil => simp at h
  | append_singleton l a ih =>
    rw [List.foldl_append]
    by_cases ha : a.Organization = org ∧ a.Repository = repo
    · refine ⟨l.length, a, List.getElem?_concat_length l a, ha, ?_, ?_⟩
      · intro j q hj hq
        have hnone : (l ++ [a])[j]? = none :=
          List.getElem?_eq_none (by simp; omega)
        rw [hnone] at hq
        cases hq
      · have hcond : (a.Organization == org && a.Repository == repo) = true := by
          simp [ha.1, ha.2]
        simp only [List.foldl_cons, List.foldl_nil, hcond, if_true]
    · have hl : ∃ q ∈ l, q.Organization = org ∧ q.Repository = repo := by
        obtain ⟨q, hq, hm⟩ := h
        rcases List.mem_append.mp hq with hq | hq
        · exact ⟨q, hq, hm⟩
        · have : q = a := by simpa using hq
          exact absurd (this ▸ hm) ha
      obtain ⟨i, p, hip, hp, hlast, hfold⟩ := ih hl
      have hi : i < l.length := by
        by_contra hge
        rw [List.getElem?_eq_none (by omega)] at hip
        cases hip
      refine ⟨i, p, ?_, hp, ?_, ?_⟩
      · rw [List.getElem?_append_left hi]; exact hip
      · intro j q hj hq
        by_cases hjl : j < l.length
        · rw [List.getElem?_append_left hjl] at hq
          exact hlast j q hj hq
        · by_cases hje : j = l.length
          · subst hje
            rw [List.getElem?_concat_length] at hq
            cases hq
            exact ha
          · rw [List.getElem?_eq_none (by simp; omega)] at hq
            cases hq
      · have hcond : (a.Organization == org && a.Repository == repo) = false := by
          rw [Bool.eq_false_iff]
          intro hc
          simp only [Bool.and_eq_true, beq_iff_eq] at hc
          exact ha hc
        simp only [List.foldl_cons, List.foldl_nil, hcond, Bool.false_eq_true, if_false]
        exact hfold

/-- The function `findProject` as one scan of the sequence (a nil slice scans nothing). -/
theorem findProject_eq_foldl (cfg : Config) (org repo : String) :
    findProject cfg org repo =
      (cfg.Projects.getD []).foldl
        (fun acc p => if p.Organization == org && p.Repository == repo then (none, p) else acc)
        (some "Project not registered", Project.zero) := by
  unfold findProject
  cases cfg.Projects <;> rfl

theorem findProject_of_match (cfg : Config) (org repo : String)
    (h : ∃ q ∈ cfg.Projects.getD [], q.Organization = org ∧ q.Repository = repo) :
    (findProject cfg org repo).1 = none ∧
    ∃ i : Nat, (cfg.Projects.getD [])[i]? = some (findProject cfg org repo).2 ∧
      ((findProject cfg org repo).2.Organization = org ∧
        (findProject cfg org repo).2.Repository = repo) ∧
      ∀ (j : Nat) (q : Project), i < j → (cfg.Projects.getD [])[j]? = some q →
        ¬ (q.Organization = org ∧ q.Repository = repo) := by
  obtain ⟨i, p, hip, hp, hlast, hfold⟩ :=
    findLoop_some org repo (some "Project not registered", Project.zero) _ h
  rw [findProject_eq_foldl, hfold]
  exact ⟨rfl, i, hip, hp, hlast⟩

theorem findProject_of_no_match (cfg : Config) (org repo : String)
    (h : ¬ ∃ q ∈ cfg.Projects.getD [], q.Organization = org ∧ q.Repository = repo) :
    findProject cfg org repo = (some "Project not registered", Project.zero) := by
  rw [findProject_eq_foldl]
  exact findLoop_none org repo _ _ (fun q hq hm => h ⟨q, hq, hm⟩)

/-- C2. `findProject` succeeds (nil error) exactly when some configured
project has `Organization = org` and `Repository = repo`; it then returns the
matching entry of greatest index; when no entry matches (a nil or empty
sequence included) it fails with the error "Project not registered". -/
theorem findProject_spec (cfg : Config) (org repo : String) :
    ((findProject cfg org repo).1 = none ↔
      ∃ q ∈ cfg.Projects.getD [], q.Organization = org ∧ q.Repository = repo) ∧
    ((∃ q ∈ cfg.Projects.getD [], q.Organization = org ∧ q.Repository = repo) →
      ∃ i : Nat, (cfg.Projects.getD [])[i]? = some (findProject cfg org repo).2 ∧
        ((findProject cfg org repo).2.Organization = org ∧
          (findProject cfg org repo).2.Repository = repo) ∧
        ∀ (j : Nat) (q : Project), i < j → (cfg.Projects.getD [])[j]? = some q →
          ¬ (q.Organization = org ∧ q.Repository = repo)) ∧
    ((¬ ∃ q ∈ cfg.Projects.getD [], q.Organization = org ∧ q.Repository = repo) →
      (findProject cfg org repo).1 = some "Project not registered") := by
  refine ⟨⟨fun herr => ?_, fun h => (findProject_of_match cfg org repo h).1⟩,
    fun h => (findProject_of_match cfg org repo h).2, fun h => ?_⟩
  · by_contra hno
    rw [findProject_of_no_match cfg org repo hno] at herr
    cases herr
  · rw [findProject_of_no_match cfg org repo h]

/-- C2 instantiated: of two entries for `acme/widgets` the second is returned,
and a nil project sequence yields the error. -/
theorem findProject_spec_witness :
    (∃ i : Nat, [exProject ["a"], exProject ["b"]][i]? =
        some (findProject ⟨":8080", some [exProject ["a"], exProject ["b"]]⟩ "acme" "widgets").2 ∧
      ((findProject ⟨":8080", some [exProject ["a"], exProject ["b"]]⟩ "acme" "widgets").2.Organization
          = "acme" ∧
        (findProject ⟨":8080", some [exProject ["a"], exProject ["b"]]⟩ "acme" "widgets").2.Repository
          = "widgets") ∧
      ∀ (j : Nat) (q : Project), i < j → [exProject ["a"], exProject ["b"]][j]? = some q →
        ¬ (q.Organization = "acme" ∧ q.Repository = "widgets")) ∧
    (findProject ⟨":8080", none⟩ "acme" "widgets").1 = some "Project not registered" :=
  ⟨(findProject_spec ⟨":8080", some [exProject ["a"], exProject ["b"]]⟩ "acme" "widgets").2.1
      ⟨exProject ["a"], by simp, by decide⟩,
   (findProject_spec ⟨":8080", none⟩ "acme" "widgets").2.2 (by simp)⟩

/-- The duplicate entry returned in the example is the one at index 1. -/
theorem duplicate_entry_lookup_run :
    findProject ⟨":8080", some [exProject ["a"], exProject ["b"]]⟩ "acme" "widgets"
      = (none, exProject ["b"]) := by
  decide

/-! ## Access policy: the two decisions -/

theorem length_lt_one_iff {α : Type} (l : List α) : l.length < 1 ↔ l = [] := by
  cases l <;> simp

theorem canPostToProject_eq_true (r : Request) (p : Project) :
    canPostToProject r p = true ↔
      (p.Origins = [] ∨
        ∃ host ∈ p.Origins,
          host = r.Header.Get "Origin" ∨ host = r.Header.Get "Referer" ∨ host = r.RemoteAddr) := by
  unfold canPostToProject
  by_cases h0 : p.Origins = []
  · simp [h0]
  · have hlen : ¬ p.Origins.length < 1 := by
      rw [length_lt_one_iff]; exact h0
    simp [hlen, h0, Request.Referer, List.any_eq_true, or_assoc]

/-- C1. `canPostToProject` returns true exactly when the project's `Origins`
is empty or one of its entries equals the request's `Origin` header, its
`Referer` header or its remote address. -/
theorem canPostToProject_iff (r : Request) (p : Project) :
    canPostToProject r p = true ↔
      (p.Origins = [] ∨
        ∃ host ∈ p.Origins,
          host = r.Header.Get "Origin" ∨ host = r.Referer ∨ host = r.RemoteAddr) :=
  canPostToProject_eq_true r p

theorem setCorsAcl_of_set (w : ResponseWriter) (r : Request) (p : Project)
    (h : p.Origins = [] ∨ r.Header.Get "Origin" ∈ p.Origins) :
    setCorsAcl w r p =
      { w with Header := w.Header.Set "Access-Control-Allow-Origin" (r.Header.Get "Origin") } := by
  unfold setCorsAcl
  by_cases h0 : p.Origins = []
  · simp [h0]
  · have hlen : ¬ p.Origins.length < 1 := by
      rw [length_lt_one_iff]; exact h0
    have hin : r.Header.Get "Origin" ∈ p.Origins := h.resolve_left h0
    have hany : p.Origins.any (fun host => host == r.Header.Get "Origin") = true := by
      rw [List.any_eq_true]; exact ⟨_, hin, by simp⟩
    simp [hlen, hany]

theorem setCorsAcl_of_unset (w : ResponseWriter) (r : Request) (p : Project)
    (h0 : p.Origins ≠ []) (hin : r.Header.Get "Origin" ∉ p.Origins) :
    setCorsAcl w r p = w := by
  unfold setCorsAcl
  have hlen : ¬ p.Origins.length < 1 := by
    rw [length_lt_one_iff]; exact h0
  have hany : p.Origins.any (fun host => host == r.Header.Get "Origin") = false := by
    rw [Bool.eq_false_iff]
    intro hc
    rw [List.any_eq_true] at hc
    obtain ⟨x, hx, hxo⟩ := hc
    have : x = r.Header.Get "Origin" := by simpa using hxo
    exact hin (this ▸ hx)
  simp [hlen, hany]

/-- C9. `setCorsAcl` sets `Access-Control-Allow-Origin` to the request's own
`Origin` when `Origins` is empty, and when `Origins` is non-empty and lists
that origin; otherwise it leaves the writer as it was.  In every case the
header afterwards holds either what it held before or the request's origin,
no other header changes, and status and body are untouched. -/
theorem setCorsAcl_spec (w : ResponseWriter) (r : Request) (p : Project) :
    (p.Origins = [] →
      (setCorsAcl w r p).Header.Values "Access-Control-Allow-Origin"
        = some [r.Header.Get "Origin"]) ∧
    (p.Origins ≠ [] → r.Header.Get "Origin" ∈ p.Origins →
      (setCorsAcl w r p).Header.Values "Access-Control-Allow-Origin"
        = some [r.Header.Get "Origin"]) ∧
    (p.Origins ≠ [] → r.Header.Get "Origin" ∉ p.Origins → setCorsAcl w r p = w) ∧
    ((setCorsAcl w r p).Header.Values "Access-Control-Allow-Origin"
        = w.Header.Values "Access-Control-Allow-Origin" ∨
      (setCorsAcl w r p).Header.Values "Access-Control-Allow-Origin"
        = some [r.Header.Get "Origin"]) ∧
    (∀ k, k ≠ "Access-Control-Allow-Origin" →
      (setCorsAcl w r p).Header.Values k = w.Header.Values k) ∧
    (setCorsAcl w r p).status = w.status ∧ (setCorsAcl w r p).body = w.body := by
  by_cases hs : p.Origins = [] ∨ r.Header.Get "Origin" ∈ p.Origins
  · rw [setCorsAcl_of_set w r p hs]
    refine ⟨fun _ => Header.Values_Set_same _ _ _, fun _ _ => Header.Values_Set_same _ _ _,
      ?_, Or.inr (Header.Values_Set_same _ _ _),
      fun k hk => Header.Values_Set_other _ _ _ k hk, rfl, rfl⟩
    intro h0 hin
    rcases hs with h | h
    · exact absurd h h0
    · exact absurd h hin
  · have h0 : p.Origins ≠ [] := fun h => hs (Or.inl h)
    have hin : r.Header.Get "Origin" ∉ p.Origins := fun h => hs (Or.inr h)
    rw [setCorsAcl_of_unset w r p h0 hin]
    exact ⟨fun h => absurd h h0, fun _ h => absurd h hin, fun _ _ => rfl, Or.inl rfl,
      fun _ _ => rfl, rfl, rfl⟩

/-- C9 instantiated: an allow-listed origin is echoed, another one is not. -/
theorem setCorsAcl_spec_witness :
    (setCorsAcl ⟨⟨[]⟩, none, ""⟩ (exRequest "https://acme.example" "Bug" "Crash")
        (exProject ["https://acme.example"])).Header.Values "Access-Control-Allow-Origin"
      = some ["https://acme.example"] ∧
    setCorsAcl ⟨⟨[]⟩, none, ""⟩ (exRequest "https://evil.example" "Bug" "Crash")
        (exProject ["https://acme.example"]) = ⟨⟨[]⟩, none, ""⟩ ∧
    (setCorsAcl ⟨⟨[]⟩, none, ""⟩ (exRequest "https://evil.example" "Bug" "Crash")
        (exProject [])).Header.Values "Access-Control-Allow-Origin"
      = some ["https://evil.example"] :=
  ⟨(setCorsAcl_spec _ (exRequest "https://acme.example" "Bug" "Crash")
      (exProject ["https://acme.example"])).2.1 (by decide) (by decide),
   (setCorsAcl_spec _ (exRequest "https://evil.example" "Bug" "Crash")
      (exProject ["https://acme.example"])).2.2.1 (by decide) (by decide),
   (setCorsAcl_spec _ (exRequest "https://evil.example" "Bug" "Crash")
      (exProject [])).1 (by decide)⟩

/-! ## The handler, branch by branch -/

/-- On a writer nothing was written to, `http.Error` with a final status code
leaves that code, the message and a line feed, and the two headers it sets. -/
theorem httpError_fresh (h : Header) (error : String) (code : Int)
    (hlo : 200 ≤ code) (hhi : code ≤ 999) :
    httpError ⟨h, none, ""⟩ error code =
      (⟨(h.Set "Content-Type" "text/plain; charset=utf-8").Set "X-Content-Type-Options" "nosniff",
        some code, error ++ "\n"⟩, false) := by
  have h1 : ¬ (code < 100 ∨ code > 999) := by omega
  have h2 : ¬ ((100 ≤ code ∧ code ≤ 199) ∧ ¬ code = 101) := by omega
  simp [httpError, ResponseWriter.WriteHeader, ResponseWriter.Write, h1, h2]

/-- With a status code outside 100..999, `http.Error` on an unwritten writer
panics inside `WriteHeader` and prints nothing. -/
theorem httpError_invalid_code (h : Header) (error : String) (code : Int)
    (hbad : code < 100 ∨ 999 < code) :
    (httpError ⟨h, none, ""⟩ error code).2 = true ∧
    (httpError ⟨h, none, ""⟩ error code).1.status = none ∧
    (httpError ⟨h, none, ""⟩ error code).1.body = "" := by
  have h1 : code < 100 ∨ code > 999 := hbad
  simp [httpError, ResponseWriter.WriteHeader, h1]

/-- Whatever it does, `http.Error` touches no header but the two it sets. -/
theorem httpError_Values (w : ResponseWriter) (error : String) (code : Int) (k : String)
    (h1 : k ≠ "Content-Type") (h2 : k ≠ "X-Content-Type-Options") :
    (httpError w error code).1.Header.Values k = w.Header.Values k := by
  have hset : ((w.Header.Set "Content-Type" "text/plain; charset=utf-8").Set
      "X-Content-Type-Options" "nosniff").Values k = w.Header.Values k := by
    rw [Header.Values_Set_other _ _ _ k h2, Header.Values_Set_other _ _ _ k h1]
  obtain ⟨hd, st, bd⟩ := w
  cases st with
  | some c => simpa [httpError, ResponseWriter.WriteHeader, ResponseWriter.Write] using hset
  | none =>
    simp only [httpError, ResponseWriter.WriteHeader, ResponseWriter.Write]
    split_ifs <;> exact hset

theorem IssueHandler_invalid {Issue : Type} (cfg : Config)
    (encode : Option Issue → Except String String) (create : CreateCall → CreateResult Issue)
    (w : ResponseWriter) (r : Request)
    (hm : r.FormValue "title" = "" ∨ r.FormValue "body" = "") :
    IssueHandler cfg encode create w r =
      ⟨(httpError w "Title and body required" 400).1, [],
        (httpError w "Title and body required" 400).2⟩ := by
  have hc : (r.FormValue "title" == "" || r.FormValue "body" == "") = true := by
    simpa using hm
  simp only [IssueHandler, hc, if_true]

theorem IssueHandler_unregistered {Issue : Type} (cfg : Config)
    (encode : Option Issue → Except String String) (create : CreateCall → CreateResult Issue)
    (w : ResponseWriter) (r : Request)
    (ht : r.FormValue "title" ≠ "") (hb : r.FormValue "body" ≠ "")
    (herr : (findProject cfg (r.Var "organization") (r.Var "project")).1 ≠ none) :
    IssueHandler cfg encode create w r =
      ⟨(httpError w "Project not registered" 400).1, [],
        (httpError w "Project not registered" 400).2⟩ := by
  have hc : (r.FormValue "title" == "" || r.FormValue "body" == "") = false := by
    simp [ht, hb]
  have he : (findProject cfg (r.Var "organization") (r.Var "project")).1.isSome = true := by
    cases hfp : (findProject cfg (r.Var "organization") (r.Var "project")).1 with
    | none => exact absurd hfp herr
    | some _ => rfl
  simp only [IssueHandler, hc, Bool.false_eq_true, if_false, he, if_true]

theorem IssueHandler_denied {Issue : Type} (cfg : Config)
    (encode : Option Issue → Except String String) (create : CreateCall → CreateResult Issue)
    (w : ResponseWriter) (r : Request)
    (ht : r.FormValue "title" ≠ "") (hb : r.FormValue "body" ≠ "")
    (herr : (findProject cfg (r.Var "organization") (r.Var "project")).1 = none)
    (hdeny : canPostToProject r
      (findProject cfg (r.Var "organization") (r.Var "project")).2 = false) :
    IssueHandler cfg encode create w r =
      ⟨(httpError
          (setCorsAcl w r (findProject cfg (r.Var "organization") (r.Var "project")).2)
          "Sorry, you can't post to this project" 401).1, [],
        (httpError
          (setCorsAcl w r (findProject cfg (r.Var "organization") (r.Var "project")).2)
          "Sorry, you can't post to this project" 401).2⟩ := by
  have hc : (r.FormValue "title" == "" || r.FormValue "body" == "") = false := by
    simp [ht, hb]
  simp only [IssueHandler, hc, Bool.false_eq_true, if_false, herr, Option.isSome_none, hdeny,
    Bool.not_false, if_true]

theorem IssueHandler_relay {Issue : Type} (cfg : Config)
    (encode : Option Issue → Except String String) (create : CreateCall → CreateResult Issue)
    (w : ResponseWriter) (r : Request)
    (ht : r.FormValue "title" ≠ "") (hb : r.FormValue "body" ≠ "")
    (herr : (findProject cfg (r.Var "organization") (r.Var "project")).1 = none)
    (hallow : canPostToProject r
      (findProject cfg (r.Var "organization") (r.Var "project")).2 = true) :
    IssueHandler cfg encode create w r =
      let p := (findProject cfg (r.Var "organization") (r.Var "project")).2
      let w1 := setCorsAcl w r p
      let call : CreateCall :=
        ⟨p.Token, p.Organization, p.Repository,
          buildIssue p (r.FormValue "title") (r.FormValue "body")⟩
      if (create call).err.isSome then
        match (create call).resp with
        | none => ⟨w1, [call], true⟩
        | some resp =>
          ⟨(httpError w1 resp.Status resp.StatusCode).1, [call],
            (httpError w1 resp.Status resp.StatusCode).2⟩
      else
        ⟨writeJson encode w1 (create call).i, [call], false⟩ := by
  have hc : (r.FormValue "title" == "" || r.FormValue "body" == "") = false := by
    simp [ht, hb]
  simp only [IssueHandler, hc, Bool.false_eq_true, if_false, herr, Option.isSome_none, hallow,
    Bool.not_true]

theorem setCorsAcl_status_body (w : ResponseWriter) (r : Request) (p : Project) :
    (setCorsAcl w r p).status = w.status ∧ (setCorsAcl w r p).body = w.body := by
  unfold setCorsAcl
  simp only []
  split
  · exact ⟨rfl, rfl⟩
  · split <;> exact ⟨rfl, rfl⟩

theorem setCorsAcl_fresh (h : Header) (r : Request) (p : Project) :
    setCorsAcl ⟨h, none, ""⟩ r p = ⟨(setCorsAcl ⟨h, none, ""⟩ r p).Header, none, ""⟩ := by
  have hsb := setCorsAcl_status_body ⟨h, none, ""⟩ r p
  cases hw : setCorsAcl ⟨h, none, ""⟩ r p with
  | mk hd st bd =>
    rw [hw] at hsb
    obtain ⟨h1, h2⟩ := hsb
    simp only at h1 h2
    subst h1 h2
    rfl

theorem canPostToProject_eq_false (r : Request) (p : Project)
    (h0 : p.Origins ≠ [])
    (hno : ∀ host ∈ p.Origins,
      host ≠ r.Header.Get "Origin" ∧ host ≠ r.Referer ∧ host ≠ r.RemoteAddr) :
    canPostToProject r p = false := by
  rw [Bool.eq_false_iff]
  intro hc
  rcases (canPostToProject_eq_true r p).mp hc with h | ⟨host, hin, hm⟩
  · exact h0 h
  · obtain ⟨h1, h2, h3⟩ := hno host hin
    rcases hm with hm | hm | hm
    · exact h1 hm
    · exact h2 hm
    · exact h3 hm

/-! ## The handler: validation, resolution and authorisation failures -/

/-- C4 as stated fails: with an empty body the response body is not "Title
and body required" but that message followed by a line feed. -/
theorem IssueHandler_missing_body_has_line_feed :
    (exRequest "" "Bug" "").FormValue "body" = "" ∧
    (IssueHandler (exConfig []) exEncode exCreateOk ⟨⟨[]⟩, none, ""⟩
        (exRequest "" "Bug" "")).w.StatusCode = 400 ∧
    (IssueHandler (exConfig []) exEncode exCreateOk ⟨⟨[]⟩, none, ""⟩
        (exRequest "" "Bug" "")).w.body ≠ "Title and body required" := by
  decide

/-- C4, amended.  When the form value `title` or the form value `body` is
empty, `IssueHandler` answers 400 with the body "Title and body required"
followed by a line feed, makes no upstream call, and its whole outcome is the
same for every configuration, every upstream and every value of the path
variables. -/
theorem IssueHandler_missing_title_or_body {Issue : Type} (cfg : Config)
    (encode : Option Issue → Except String String) (create : CreateCall → CreateResult Issue)
    (h : Header) (r : Request)
    (hm : r.FormValue "title" = "" ∨ r.FormValue "body" = "") :
    (IssueHandler cfg encode create ⟨h, none, ""⟩ r).w.StatusCode = 400 ∧
    (IssueHandler cfg encode create ⟨h, none, ""⟩ r).w.body = "Title and body required\n" ∧
    (IssueHandler cfg encode create ⟨h, none, ""⟩ r).calls = [] ∧
    (IssueHandler cfg encode create ⟨h, none, ""⟩ r).panicked = false ∧
    ∀ (cfg2 : Config) (create2 : CreateCall → CreateResult Issue) (vars : List (String × String)),
      IssueHandler cfg2 encode create2 ⟨h, none, ""⟩ { r with Vars := vars }
        = IssueHandler cfg encode create ⟨h, none, ""⟩ r := by
  rw [IssueHandler_invalid cfg encode create _ r hm,
    httpError_fresh h _ 400 (by decide) (by decide)]
  refine ⟨rfl,
    (by decide : "Title and body required" ++ "\n" = "Title and body required\n"), rfl, rfl, ?_⟩
  intro cfg2 create2 vars
  rw [IssueHandler_invalid cfg2 encode create2 _ { r with Vars := vars } hm,
    httpError_fresh h _ 400 (by decide) (by decide)]

/-- C4 instantiated: an empty body, whatever the route and configuration. -/
theorem IssueHandler_missing_title_or_body_witness :
    (IssueHandler (exConfig []) exEncode exCreateOk ⟨⟨[]⟩, none, ""⟩
        (exRequest "" "Bug" "")).w.StatusCode = 400 ∧
    (IssueHandler (exConfig []) exEncode exCreateOk ⟨⟨[]⟩, none, ""⟩
        (exRequest "" "Bug" "")).w.body = "Title and body required\n" ∧
    (IssueHandler (exConfig []) exEncode exCreateOk ⟨⟨[]⟩, none, ""⟩
        (exRequest "" "Bug" "")).calls = [] :=
  have h := IssueHandler_missing_title_or_body (exConfig []) exEncode exCreateOk ⟨[]⟩
    (exRequest "" "Bug" "") (Or.inr (by decide))
  ⟨h.1, h.2.1, h.2.2.1⟩

/-- C6 as stated fails: for a route that no configured project matches the
response body is not "Project not registered" but that message followed by a
line feed. -/
theorem IssueHandler_not_registered_has_line_feed :
    (¬ ∃ q ∈ (exConfig []).Projects.getD [],
      q.Organization = exRequestGadgets.Var "organization" ∧
        q.Repository = exRequestGadgets.Var "project") ∧
    (IssueHandler (exConfig []) exEncode exCreateOk ⟨⟨[]⟩, none, ""⟩
        exRequestGadgets).w.StatusCode = 400 ∧
    (IssueHandler (exConfig []) exEncode exCreateOk ⟨⟨[]⟩, none, ""⟩
        exRequestGadgets).w.body ≠ "Project not registered" := by
  decide

/-- C6, amended.  With non-empty title and body and path variables that match
no configured project, `IssueHandler` answers 400 with the body "Project not
registered" followed by a line feed, leaves `Access-Control-Allow-Origin` as
it was (it sets none), and makes no upstream call. -/
theorem IssueHandler_not_registered {Issue : Type} (cfg : Config)
    (encode : Option Issue → Except String String) (create : CreateCall → CreateResult Issue)
    (h : Header) (r : Request)
    (ht : r.FormValue "title" ≠ "") (hb : r.FormValue "body" ≠ "")
    (hno : ¬ ∃ q ∈ cfg.Projects.getD [],
      q.Organization = r.Var "organization" ∧ q.Repository = r.Var "project") :
    (IssueHandler cfg encode create ⟨h, none, ""⟩ r).w.StatusCode = 400 ∧
    (IssueHandler cfg encode create ⟨h, none, ""⟩ r).w.body = "Project not registered\n" ∧
    (IssueHandler cfg encode create ⟨h, none, ""⟩ r).w.Header.Values
      "Access-Control-Allow-Origin" = h.Values "Access-Control-Allow-Origin" ∧
    (IssueHandler cfg encode create ⟨h, none, ""⟩ r).calls = [] ∧
    (IssueHandler cfg encode create ⟨h, none, ""⟩ r).panicked = false := by
  have herr : (findProject cfg (r.Var "organization") (r.Var "project")).1 ≠ none := by
    rw [findProject_of_no_match cfg _ _ hno]
    simp
  have hacao := httpError_Values ⟨h, none, ""⟩ "Project not registered" 400
    "Access-Control-Allow-Origin" (by decide) (by decide)
  rw [IssueHandler_unregistered cfg encode create _ r ht hb herr]
  refine ⟨?_, ?_, hacao, rfl, ?_⟩
  · rw [httpError_fresh h _ 400 (by decide) (by decide)]
    rfl
  · rw [httpError_fresh h _ 400 (by decide) (by decide)]
    exact (by decide : "Project not registered" ++ "\n" = "Project not registered\n")
  · rw [httpError_fresh h _ 400 (by decide) (by decide)]

/-- C6 instantiated: a request for `acme/gadgets` when only `acme/widgets` is
configured, and a request for `acme/widgets` when the project slice is nil. -/
theorem IssueHandler_not_registered_witness :
    ((IssueHandler (exConfig []) exEncode exCreateOk ⟨⟨[]⟩, none, ""⟩
        exRequestGadgets).w.StatusCode = 400 ∧
      (IssueHandler (exConfig []) exEncode exCreateOk ⟨⟨[]⟩, none, ""⟩
        exRequestGadgets).w.body = "Project not registered\n" ∧
      (IssueHandler (exConfig []) exEncode exCreateOk ⟨⟨[]⟩, none, ""⟩
        exRequestGadgets).w.Header.Values "Access-Control-Allow-Origin"
          = (⟨[]⟩ : Header).Values "Access-Control-Allow-Origin" ∧
      (IssueHandler (exConfig []) exEncode exCreateOk ⟨⟨[]⟩, none, ""⟩
        exRequestGadgets).calls = [] ∧
      (IssueHandler (exConfig []) exEncode exCreateOk ⟨⟨[]⟩, none, ""⟩
        exRequestGadgets).panicked = false) ∧
    (IssueHandler ⟨":8080", none⟩ exEncode exCreateOk ⟨⟨[]⟩, none, ""⟩
        (exRequest "https://acme.example" "Bug" "Crash")).w.body = "Project not registered\n" :=
  ⟨IssueHandler_not_registered (exConfig []) exEncode exCreateOk ⟨[]⟩
      exRequestGadgets (by decide) (by decide) (by decide),
   (IssueHandler_not_registered ⟨":8080", none⟩ exEncode exCreateOk ⟨[]⟩
      (exRequest "https://acme.example" "Bug" "Crash") (by decide) (by decide) (by simp)).2.1⟩

/-- C5 as stated fails: for an origin the project does not list the response
body is not "Sorry, you can't post to this project" but that message followed
by a line feed. -/
theorem IssueHandler_unauthorized_has_line_feed :
    findProject (exConfig ["https://acme.example"])
        ((exRequest "https://evil.example" "Bug" "Crash").Var "organization")
        ((exRequest "https://evil.example" "Bug" "Crash").Var "project")
      = (none, exProject ["https://acme.example"]) ∧
    canPostToProject (exRequest "https://evil.example" "Bug" "Crash")
        (exProject ["https://acme.example"]) = false ∧
    (IssueHandler (exConfig ["https://acme.example"]) exEncode exCreateOk ⟨⟨[]⟩, none, ""⟩
        (exRequest "https://evil.example" "Bug" "Crash")).w.StatusCode = 401 ∧
    (IssueHandler (exConfig ["https://acme.example"]) exEncode exCreateOk ⟨⟨[]⟩, none, ""⟩
        (exRequest "https://evil.example" "Bug" "Crash")).w.body
      ≠ "Sorry, you can't post to this project" := by
  decide

/-- C5, amended.  With non-empty title and body, when the route resolves to a
project whose `Origins` is non-empty and has no entry equal to the request's
`Origin` header, `Referer` header or remote address, `IssueHandler` answers
401 with the body "Sorry, you can't post to this project" followed by a line
feed and makes no upstream call. -/
theorem IssueHandler_unauthorized {Issue : Type} (cfg : Config)
    (encode : Option Issue → Except String String) (create : CreateCall → CreateResult Issue)
    (h : Header) (r : Request) (p : Project)
    (ht : r.FormValue "title" ≠ "") (hb : r.FormValue "body" ≠ "")
    (hfind : findProject cfg (r.Var "organization") (r.Var "project") = (none, p))
    (h0 : p.Origins ≠ [])
    (hno : ∀ host ∈ p.Origins,
      host ≠ r.Header.Get "Origin" ∧ host ≠ r.Referer ∧ host ≠ r.RemoteAddr) :
    (IssueHandler cfg encode create ⟨h, none, ""⟩ r).w.StatusCode = 401 ∧
    (IssueHandler cfg encode create ⟨h, none, ""⟩ r).w.body
      = "Sorry, you can't post to this project\n" ∧
    (IssueHandler cfg encode create ⟨h, none, ""⟩ r).calls = [] ∧
    (IssueHandler cfg encode create ⟨h, none, ""⟩ r).panicked = false := by
  have herr : (findProject cfg (r.Var "organization") (r.Var "project")).1 = none := by
    rw [hfind]
  have hdeny : canPostToProject r
      (findProject cfg (r.Var "organization") (r.Var "project")).2 = false := by
    rw [hfind]
    exact canPostToProject_eq_false r p h0 hno
  rw [IssueHandler_denied cfg encode create _ r ht hb herr hdeny, setCorsAcl_fresh,
    httpError_fresh _ _ 401 (by decide) (by decide)]
  exact ⟨rfl,
    (by decide : "Sorry, you can't post to this project" ++ "\n"
      = "Sorry, you can't post to this project\n"), rfl, rfl⟩

/-- C5 instantiated: the project allows `https://acme.example` only and the
request comes from `https://evil.example`. -/
theorem IssueHandler_unauthorized_witness :
    (IssueHandler (exConfig ["https://acme.example"]) exEncode exCreateOk ⟨⟨[]⟩, none, ""⟩
        (exRequest "https://evil.example" "Bug" "Crash")).w.StatusCode = 401 ∧
    (IssueHandler (exConfig ["https://acme.example"]) exEncode exCreateOk ⟨⟨[]⟩, none, ""⟩
        (exRequest "https://evil.example" "Bug" "Crash")).w.body
      = "Sorry, you can't post to this project\n" ∧
    (IssueHandler (exConfig ["https://acme.example"]) exEncode exCreateOk ⟨⟨[]⟩, none, ""⟩
        (exRequest "https://evil.example" "Bug" "Crash")).calls = [] ∧
    (IssueHandler (exConfig ["https://acme.example"]) exEncode exCreateOk ⟨⟨[]⟩, none, ""⟩
        (exRequest "https://evil.example" "Bug" "Crash")).panicked = false :=
  IssueHandler_unauthorized (exConfig ["https://acme.example"]) exEncode exCreateOk ⟨[]⟩
    (exRequest "https://evil.example" "Bug" "Crash") (exProject ["https://acme.example"])
    (by decide) (by decide) (by decide) (by decide) (by decide)

/-! ## The handler: the relay -/

theorem buildIssue_fields (p : Project) (title body : String) :
    buildIssue p title body =
      { Title := some title, Body := some body,
        Labels := if p.Labels = [] then none else some p.Labels,
        Assignee := if p.Assignee = "" then none else some p.Assignee,
        State := if p.State = "" then none else some p.State,
        Milestone := if p.Milestone = 0 then none else some p.Milestone } := by
  unfold buildIssue
  by_cases hl : p.Labels = [] <;> by_cases ha : p.Assignee = "" <;>
    by_cases hs : p.State = "" <;> by_cases hm : p.Milestone = 0 <;>
    simp [hl, ha, hs, hm, List.length_pos]

theorem IssueHandler_relay_calls {Issue : Type} (cfg : Config)
    (encode : Option Issue → Except String String) (create : CreateCall → CreateResult Issue)
    (w : ResponseWriter) (r : Request)
    (ht : r.FormValue "title" ≠ "") (hb : r.FormValue "body" ≠ "")
    (herr : (findProject cfg (r.Var "organization") (r.Var "project")).1 = none)
    (hallow : canPostToProject r
      (findProject cfg (r.Var "organization") (r.Var "project")).2 = true) :
    (IssueHandler cfg encode create w r).calls =
      [⟨(findProject cfg (r.Var "organization") (r.Var "project")).2.Token,
        (findProject cfg (r.Var "organization") (r.Var "project")).2.Organization,
        (findProject cfg (r.Var "organization") (r.Var "project")).2.Repository,
        buildIssue (findProject cfg (r.Var "organization") (r.Var "project")).2
          (r.FormValue "title") (r.FormValue "body")⟩] := by
  rw [IssueHandler_relay cfg encode create w r ht hb herr hallow]
  simp only []
  split
  · split <;> rfl
  · rfl

/-- Every upstream call the handler makes is the one built from the resolved
project and the two form values. -/
theorem IssueHandler_calls_mem {Issue : Type} (cfg : Config)
    (encode : Option Issue → Except String String) (create : CreateCall → CreateResult Issue)
    (w : ResponseWriter) (r : Request) (c : CreateCall)
    (hc : c ∈ (IssueHandler cfg encode create w r).calls) :
    c = ⟨(findProject cfg (r.Var "organization") (r.Var "project")).2.Token,
        (findProject cfg (r.Var "organization") (r.Var "project")).2.Organization,
        (findProject cfg (r.Var "organization") (r.Var "project")).2.Repository,
        buildIssue (findProject cfg (r.Var "organization") (r.Var "project")).2
          (r.FormValue "title") (r.FormValue "body")⟩ := by
  by_cases hm : r.FormValue "title" = "" ∨ r.FormValue "body" = ""
  · rw [IssueHandler_invalid cfg encode create w r hm] at hc
    simp at hc
  · have ht : r.FormValue "title" ≠ "" := fun h => hm (Or.inl h)
    have hb : r.FormValue "body" ≠ "" := fun h => hm (Or.inr h)
    by_cases herr : (findProject cfg (r.Var "organization") (r.Var "project")).1 = none
    · cases hallow : canPostToProject r
          (findProject cfg (r.Var "organization") (r.Var "project")).2 with
      | false =>
        rw [IssueHandler_denied cfg encode create w r ht hb herr hallow] at hc
        simp at hc
      | true =>
        rw [IssueHandler_relay_calls cfg encode create w r ht hb herr hallow] at hc
        simpa using hc
    · rw [IssueHandler_unregistered cfg encode create w r ht hb herr] at hc
      simp at hc

/-- C3. The issue request of every upstream call `IssueHandler` makes has
`Title` and `Body` set to the two form values, has `Labels`, `Assignee`,
`State` and `Milestone` present exactly when the resolved project's value is
non-empty (non-zero for the milestone), and each present field holds the
project's value. -/
theorem IssueHandler_issue_request {Issue : Type} (cfg : Config)
    (encode : Option Issue → Except String String) (create : CreateCall → CreateResult Issue)
    (w : ResponseWriter) (r : Request) (p : Project) (c : CreateCall)
    (hfind : findProject cfg (r.Var "organization") (r.Var "project") = (none, p))
    (hc : c ∈ (IssueHandler cfg encode create w r).calls) :
    c.Issue.Title = some (r.FormValue "title") ∧
    c.Issue.Body = some (r.FormValue "body") ∧
    (c.Issue.Labels ≠ none ↔ p.Labels ≠ []) ∧
    (∀ l, c.Issue.Labels = some l → l = p.Labels) ∧
    (c.Issue.Assignee ≠ none ↔ p.Assignee ≠ "") ∧
    (∀ a, c.Issue.Assignee = some a → a = p.Assignee) ∧
    (c.Issue.State ≠ none ↔ p.State ≠ "") ∧
    (∀ s, c.Issue.State = some s → s = p.State) ∧
    (c.Issue.Milestone ≠ none ↔ p.Milestone ≠ 0) ∧
    (∀ m, c.Issue.Milestone = some m → m = p.Milestone) := by
  have hceq := IssueHandler_calls_mem cfg encode create w r c hc
  rw [hfind, buildIssue_fields] at hceq
  subst hceq
  refine ⟨rfl, rfl, ?_, ?_, ?_, ?_, ?_, ?_, ?_, ?_⟩
  · by_cases hl : p.Labels = [] <;> simp [hl]
  · intro l hl
    by_cases h0 : p.Labels = []
    · simp [h0] at hl
    · simpa [h0] using hl.symm
  · by_cases hl : p.Assignee = "" <;> simp [hl]
  · intro l hl
    by_cases h0 : p.Assignee = ""
    · simp [h0] at hl
    · simpa [h0] using hl.symm
  · by_cases hl : p.State = "" <;> simp [hl]
  · intro l hl
    by_cases h0 : p.State = ""
    · simp [h0] at hl
    · simpa [h0] using hl.symm
  · by_cases hl : p.Milestone = 0 <;> simp [hl]
  · intro l hl
    by_cases h0 : p.Milestone = 0
    · simp [h0] at hl
    · simpa [h0] using hl.symm

/-- C3 instantiated: labels, assignee and milestone are sent, the state is not. -/
theorem IssueHandler_issue_request_witness :
    (⟨"tok", "acme", "gadgets",
        ⟨some "Bug", some "Crashes on load", some ["bug", "web"], some "octocat", none,
          some 3⟩⟩ : CreateCall).Issue.Title = some (exRequestGadgets.FormValue "title") ∧
    ((⟨"tok", "acme", "gadgets",
        ⟨some "Bug", some "Crashes on load", some ["bug", "web"], some "octocat", none,
          some 3⟩⟩ : CreateCall).Issue.State ≠ none ↔ exProjectDefaults.State ≠ "") ∧
    ((⟨"tok", "acme", "gadgets",
        ⟨some "Bug", some "Crashes on load", some ["bug", "web"], some "octocat", none,
          some 3⟩⟩ : CreateCall).Issue.Milestone ≠ none ↔ exProjectDefaults.Milestone ≠ 0) :=
  have h := IssueHandler_issue_request ⟨":8080", some [exProjectDefaults]⟩ exEncode exCreateOk
    ⟨⟨[]⟩, none, ""⟩ exRequestGadgets exProjectDefaults
    ⟨"tok", "acme", "gadgets",
      ⟨some "Bug", some "Crashes on load", some ["bug", "web"], some "octocat", none, some 3⟩⟩
    (by decide) (by decide)
  ⟨h.1, h.2.2.2.2.2.2.1, h.2.2.2.2.2.2.2.2.1⟩

/-- C8. With non-empty title and body, when the route resolves to a project
`p` that authorises the request (as every request is when `p.Origins` is
empty), exactly one upstream call is made, with `p.Token` and scoped to
`p.Organization` and `p.Repository`; when that call succeeds the response has
status 200 and its body is the JSON encoding of the call's result. -/
theorem IssueHandler_relays {Issue : Type} (cfg : Config)
    (encode : Option Issue → Except String String) (create : CreateCall → CreateResult Issue)
    (h : Header) (r : Request) (p : Project)
    (ht : r.FormValue "title" ≠ "") (hb : r.FormValue "body" ≠ "")
    (hfind : findProject cfg (r.Var "organization") (r.Var "project") = (none, p))
    (hauth : canPostToProject r p = true ∨ p.Origins = []) :
    ∃ c : CreateCall,
      (IssueHandler cfg encode create ⟨h, none, ""⟩ r).calls = [c] ∧
      c.Token = p.Token ∧ c.Owner = p.Organization ∧ c.Repo = p.Repository ∧
      ((create c).err = none → ∀ s, encode (create c).i = .ok s →
        (IssueHandler cfg encode create ⟨h, none, ""⟩ r).w.StatusCode = 200 ∧
        (IssueHandler cfg encode create ⟨h, none, ""⟩ r).w.body = s ∧
        (IssueHandler cfg encode create ⟨h, none, ""⟩ r).panicked = false) := by
  have herr : (findProject cfg (r.Var "organization") (r.Var "project")).1 = none := by
    rw [hfind]
  have hallow : canPostToProject r
      (findProject cfg (r.Var "organization") (r.Var "project")).2 = true := by
    rw [hfind]
    rcases hauth with ha | ha
    · exact ha
    · exact (canPostToProject_eq_true r p).mpr (Or.inl ha)
  refine ⟨_, IssueHandler_relay_calls cfg encode create _ r ht hb herr hallow, ?_, ?_, ?_, ?_⟩
  · rw [hfind]
  · rw [hfind]
  · rw [hfind]
  · intro hok s hs
    rw [IssueHandler_relay cfg encode create _ r ht hb herr hallow]
    simp only [hok, Option.isSome_none, Bool.false_eq_true, if_false, writeJson, hs]
    rw [setCorsAcl_fresh]
    simp [ResponseWriter.Write, ResponseWriter.WriteHeader, ResponseWriter.StatusCode]

/-- C8 instantiated: the open project `acme/gadgets`, a request without an
`Origin` header, and an upstream that creates issue 42. -/
theorem IssueHandler_relays_witness :
    ∃ c : CreateCall,
      (IssueHandler ⟨":8080", some [exProjectDefaults]⟩ exEncode exCreateOk ⟨⟨[]⟩, none, ""⟩
        exRequestGadgets).calls = [c] ∧
      c.Token = exProjectDefaults.Token ∧ c.Owner = exProjectDefaults.Organization ∧
      c.Repo = exProjectDefaults.Repository ∧
      ((exCreateOk c).err = none → ∀ s, exEncode (exCreateOk c).i = .ok s →
        (IssueHandler ⟨":8080", some [exProjectDefaults]⟩ exEncode exCreateOk ⟨⟨[]⟩, none, ""⟩
          exRequestGadgets).w.StatusCode = 200 ∧
        (IssueHandler ⟨":8080", some [exProjectDefaults]⟩ exEncode exCreateOk ⟨⟨[]⟩, none, ""⟩
          exRequestGadgets).w.body = s ∧
        (IssueHandler ⟨":8080", some [exProjectDefaults]⟩ exEncode exCreateOk ⟨⟨[]⟩, none, ""⟩
          exRequestGadgets).panicked = false) :=
  IssueHandler_relays ⟨":8080", some [exProjectDefaults]⟩ exEncode exCreateOk ⟨[]⟩
    exRequestGadgets exProjectDefaults (by decide) (by decide) (by decide) (Or.inr (by decide))

/-- The run of C8's example, evaluated: status 200 and body `42`. -/
theorem open_project_relay_run :
    IssueHandler ⟨":8080", some [exProjectDefaults]⟩ exEncode exCreateOk ⟨⟨[]⟩, none, ""⟩
        exRequestGadgets
      = ⟨⟨⟨[("Access-Control-Allow-Origin", [""])]⟩, some 200, "42"⟩,
          [⟨"tok", "acme", "gadgets",
            ⟨some "Bug", some "Crashes on load", some ["bug", "web"], some "octocat", none,
              some 3⟩⟩],
          false⟩ := by
  decide

/-! ## The handler: upstream failures -/

/-- When the upstream call fails and returns a response whose status code is a
final one (200..999), the handler answers with that status code and with the
status text followed by a line feed. -/
theorem IssueHandler_upstream_failure_relayed {Issue : Type} (cfg : Config)
    (encode : Option Issue → Except String String) (create : CreateCall → CreateResult Issue)
    (h : Header) (r : Request) (p : Project) (e : String) (resp : Response)
    (hlo : 200 ≤ resp.StatusCode) (hhi : resp.StatusCode ≤ 999)
    (ht : r.FormValue "title" ≠ "") (hb : r.FormValue "body" ≠ "")
    (hfind : findProject cfg (r.Var "organization") (r.Var "project") = (none, p))
    (hallow : canPostToProject r p = true)
    (hfail : (create ⟨p.Token, p.Organization, p.Repository,
      buildIssue p (r.FormValue "title") (r.FormValue "body")⟩).err = some e)
    (hresp : (create ⟨p.Token, p.Organization, p.Repository,
      buildIssue p (r.FormValue "title") (r.FormValue "body")⟩).resp = some resp) :
    (IssueHandler cfg encode create ⟨h, none, ""⟩ r).w.StatusCode = resp.StatusCode ∧
    (IssueHandler cfg encode create ⟨h, none, ""⟩ r).w.body = resp.Status ++ "\n" ∧
    (IssueHandler cfg encode create ⟨h, none, ""⟩ r).panicked = false := by
  have herr : (findProject cfg (r.Var "organization") (r.Var "project")).1 = none := by
    rw [hfind]
  have hallow2 : canPostToProject r
      (findProject cfg (r.Var "organization") (r.Var "project")).2 = true := by
    rw [hfind]; exact hallow
  rw [IssueHandler_relay cfg encode create _ r ht hb herr hallow2]
  simp only [hfind, hfail, hresp, Option.isSome_some, if_true]
  rw [setCorsAcl_fresh, httpError_fresh _ _ _ hlo hhi]
  simp [ResponseWriter.StatusCode]

/-- When the upstream call fails and returns no response, the handler ends in
a panic on reading the response's status: no status and no body are written. -/
theorem IssueHandler_upstream_failure_nil {Issue : Type} (cfg : Config)
    (encode : Option Issue → Except String String) (create : CreateCall → CreateResult Issue)
    (h : Header) (r : Request) (p : Project) (e : String)
    (ht : r.FormValue "title" ≠ "") (hb : r.FormValue "body" ≠ "")
    (hfind : findProject cfg (r.Var "organization") (r.Var "project") = (none, p))
    (hallow : canPostToProject r p = true)
    (hfail : (create ⟨p.Token, p.Organization, p.Repository,
      buildIssue p (r.FormValue "title") (r.FormValue "body")⟩).err = some e)
    (hresp : (create ⟨p.Token, p.Organization, p.Repository,
      buildIssue p (r.FormValue "title") (r.FormValue "body")⟩).resp = none) :
    (IssueHandler cfg encode create ⟨h, none, ""⟩ r).panicked = true ∧
    (IssueHandler cfg encode create ⟨h, none, ""⟩ r).w.status = none ∧
    (IssueHandler cfg encode create ⟨h, none, ""⟩ r).w.body = "" := by
  have herr : (findProject cfg (r.Var "organization") (r.Var "project")).1 = none := by
    rw [hfind]
  have hallow2 : canPostToProject r
      (findProject cfg (r.Var "organization") (r.Var "project")).2 = true := by
    rw [hfind]; exact hallow
  rw [IssueHandler_relay cfg encode create _ r ht hb herr hallow2]
  simp only [hfind, hfail, hresp, Option.isSome_some, if_true]
  rw [setCorsAcl_fresh]
  simp

/-- C7 at its failing input.  The open project `acme/widgets`, a valid
request, and an upstream call that fails without a response: the handler
panics after the call, having written neither a status nor a body. -/
theorem IssueHandler_nil_response_panics :
    IssueHandler (exConfig []) exEncode (exCreateFail none) ⟨⟨[]⟩, none, ""⟩
        (exRequest "https://acme.example" "Bug" "Crash")
      = ⟨⟨⟨[("Access-Control-Allow-Origin", ["https://acme.example"])]⟩, none, ""⟩,
          [⟨"tok", "acme", "widgets", ⟨some "Bug", some "Crash", none, none, none, none⟩⟩],
          true⟩ := by
  decide

/-! ## CORS against authorisation -/

/-- A run that makes no upstream call leaves `Access-Control-Allow-Origin` as
it found it. -/
theorem IssueHandler_cors_of_no_calls {Issue : Type} (cfg : Config)
    (encode : Option Issue → Except String String) (create : CreateCall → CreateResult Issue)
    (w : ResponseWriter) (r : Request)
    (hcalls : (IssueHandler cfg encode create w r).calls = []) :
    (IssueHandler cfg encode create w r).w.Header.Values "Access-Control-Allow-Origin"
      = w.Header.Values "Access-Control-Allow-Origin" := by
  by_cases hm : r.FormValue "title" = "" ∨ r.FormValue "body" = ""
  · rw [IssueHandler_invalid cfg encode create w r hm]
    exact httpError_Values _ _ _ _ (by decide) (by decide)
  · have ht : r.FormValue "title" ≠ "" := fun h => hm (Or.inl h)
    have hb : r.FormValue "body" ≠ "" := fun h => hm (Or.inr h)
    by_cases herr : (findProject cfg (r.Var "organization") (r.Var "project")).1 = none
    · cases hallow : canPostToProject r
          (findProject cfg (r.Var "organization") (r.Var "project")).2 with
      | false =>
        rw [IssueHandler_denied cfg encode create w r ht hb herr hallow]
        have hunset : setCorsAcl w r
            (findProject cfg (r.Var "organization") (r.Var "project")).2 = w := by
          by_cases hs :
              (findProject cfg (r.Var "organization") (r.Var "project")).2.Origins = [] ∨
              r.Header.Get "Origin" ∈
                (findProject cfg (r.Var "organization") (r.Var "project")).2.Origins
          · have htrue : canPostToProject r
                (findProject cfg (r.Var "organization") (r.Var "project")).2 = true := by
              rw [canPostToProject_eq_true]
              rcases hs with hs | hs
              · exact Or.inl hs
              · exact Or.inr ⟨_, hs, Or.inl rfl⟩
            rw [hallow] at htrue
            cases htrue
          · exact setCorsAcl_of_unset w r _ (fun h0 => hs (Or.inl h0)) (fun hin => hs (Or.inr hin))
        rw [hunset]
        exact httpError_Values _ _ _ _ (by decide) (by decide)
      | true =>
        rw [IssueHandler_relay_calls cfg encode create w r ht hb herr hallow] at hcalls
        cases hcalls
    · rw [IssueHandler_unregistered cfg encode create w r ht hb herr]
      exact httpError_Values _ _ _ _ (by decide) (by decide)

/-- C10 as stated fails: a relayed upstream 401 is a 401 response of
`IssueHandler` that carries `Access-Control-Allow-Origin`. -/
theorem IssueHandler_relayed_401_has_cors :
    (IssueHandler (exConfig ["https://acme.example"]) exEncode
        (exCreateFail (some ⟨"401 Unauthorized", 401⟩)) ⟨⟨[]⟩, none, ""⟩
        (exRequest "https://acme.example" "Bug" "Crash")).w.StatusCode = 401 ∧
    (IssueHandler (exConfig ["https://acme.example"]) exEncode
        (exCreateFail (some ⟨"401 Unauthorized", 401⟩)) ⟨⟨[]⟩, none, ""⟩
        (exRequest "https://acme.example" "Bug" "Crash")).w.Header.Values
          "Access-Control-Allow-Origin" = some ["https://acme.example"] := by
  decide

/-- C10, amended.  Whenever `setCorsAcl` sets `Access-Control-Allow-Origin` on
a writer that did not carry it, `canPostToProject` returns true; every 401
response that `IssueHandler` gives without having made an upstream call (the
authorisation denial) carries no `Access-Control-Allow-Origin`; and the
converse of the first part fails: some authorised request leaves the header
unset. -/
theorem cors_never_exceeds_authorization :
    (∀ (w : ResponseWriter) (r : Request) (p : Project),
      w.Header.Values "Access-Control-Allow-Origin" = none →
      (setCorsAcl w r p).Header.Values "Access-Control-Allow-Origin" ≠ none →
      canPostToProject r p = true) ∧
    (∀ (Issue : Type) (cfg : Config) (encode : Option Issue → Except String String)
      (create : CreateCall → CreateResult Issue) (h : Header) (r : Request),
      h.Values "Access-Control-Allow-Origin" = none →
      (IssueHandler cfg encode create ⟨h, none, ""⟩ r).w.StatusCode = 401 →
      (IssueHandler cfg encode create ⟨h, none, ""⟩ r).calls = [] →
      (IssueHandler cfg encode create ⟨h, none, ""⟩ r).w.Header.Values
        "Access-Control-Allow-Origin" = none) ∧
    (∃ (r : Request) (p : Project),
      canPostToProject r p = true ∧
      (setCorsAcl ⟨⟨[]⟩, none, ""⟩ r p).Header.Values "Access-Control-Allow-Origin" = none) := by
  refine ⟨?_, ?_, ?_⟩
  · intro w r p hw hset
    by_cases hs : p.Origins = [] ∨ r.Header.Get "Origin" ∈ p.Origins
    · rw [canPostToProject_eq_true]
      rcases hs with hs | hs
      · exact Or.inl hs
      · exact Or.inr ⟨_, hs, Or.inl rfl⟩
    · rw [setCorsAcl_of_unset w r p (fun h0 => hs (Or.inl h0)) (fun hin => hs (Or.inr hin))]
        at hset
      exact absurd hw hset
  · intro Issue cfg encode create h r hh _ hcalls
    rw [IssueHandler_cors_of_no_calls cfg encode create _ r hcalls]
    exact hh
  · exact ⟨exRequestReferer, exProject ["https://acme.example"], by decide, by decide⟩

/-- C10 instantiated: an allow-listed origin gets the header and is
authorised; the denial of another origin is a 401 without the header. -/
theorem cors_never_exceeds_authorization_witness :
    canPostToProject (exRequest "https://acme.example" "Bug" "Crash")
        (exProject ["https://acme.example"]) = true ∧
    (IssueHandler (exConfig ["https://acme.example"]) exEncode exCreateOk ⟨⟨[]⟩, none, ""⟩
        (exRequest "https://evil.example" "Bug" "Crash")).w.Header.Values
          "Access-Control-Allow-Origin" = none :=
  ⟨cors_never_exceeds_authorization.1 ⟨⟨[]⟩, none, ""⟩
      (exRequest "https://acme.example" "Bug" "Crash") (exProject ["https://acme.example"])
      (by decide) (by decide),
   cors_never_exceeds_authorization.2.1 Nat (exConfig ["https://acme.example"]) exEncode
      exCreateOk ⟨[]⟩ (exRequest "https://evil.example" "Bug" "Crash")
      (by decide) (by decide) (by decide)⟩

end GhIssueCollector
